import Mathlib

/-!
Verification of the Atlas Code Wiki front-end core: the query-to-agent-workflow
dispatcher, the prompt assembler, the streaming completion gateway wrapper, the
session state machine of `App.tsx`, and the repository-import flow.

The TypeScript sources are shallowly embedded: pure functions become Lean
functions over `String`/`List`; the React `setState` updates of
`handleSendMessage` / timers / `handleImportRepo` become a step function on an
explicit session state, with `Date.now()` readings passed in as `Nat`
parameters (ids are modelled as the `Nat` reading itself, since
`Nat.toString` is injective the string ids of the source collide exactly when
the `Nat` ids do).  JavaScript `String.prototype.toLowerCase` is modelled by
per-character `Char.toLower` (they agree on ASCII, which covers every trigger
keyword), and `String.prototype.includes` by infix containment of the
underlying character lists.
-/

set_option maxRecDepth 20000

namespace Atlas

/-- Agent labels, from `types.ts` (`enum AgentType`). -/
inductive AgentType where
  | ATLAS
  | EXPLORER
  | EXPLAINER
  | ARCHITECT
  | CHANGE_IMPACT
  | SECURITY
  | GENERATOR
  | REFACTORER
deriving DecidableEq, Repr

/-- Message roles, from `types.ts` (`role: 'user' | 'assistant'`). -/
inductive Role where
  | user
  | assistant
deriving DecidableEq, Repr

/-- Models JavaScript `hay.includes(needle)`: substring containment, as infix
containment of the character lists. -/
def substrOf (needle hay : String) : Bool :=
  decide (needle.data <:+: hay.data)

/-- Models JavaScript `s.toLowerCase()` by per-character ASCII lowercasing
(`Char.toLower`); they agree on ASCII input, which covers all triggers. -/
def jsToLower (s : String) : String :=
  ⟨s.data.map Char.toLower⟩

/-- The ordered trigger-to-workflow mapping of `getAgentWorkflow`
(`App.tsx` lines 16-34).  JavaScript `Object.entries` iterates string keys in
insertion order, so the record is embedded as an ordered association list. -/
def workflowDefinitions : List (String × List AgentType) :=
  [("generate", [.ARCHITECT, .GENERATOR, .SECURITY]),
   ("create", [.ARCHITECT, .GENERATOR, .SECURITY]),
   ("write", [.ARCHITECT, .GENERATOR, .SECURITY]),
   ("build", [.ARCHITECT, .GENERATOR, .SECURITY]),
   ("implement", [.ARCHITECT, .GENERATOR, .SECURITY]),
   ("setup", [.ARCHITECT, .GENERATOR, .SECURITY]),
   ("refactor", [.REFACTORER, .ARCHITECT]),
   ("optimize", [.REFACTORER, .ARCHITECT]),
   ("improve", [.REFACTORER, .ARCHITECT]),
   ("readability", [.REFACTORER, .ARCHITECT]),
   ("explain", [.EXPLAINER]),
   ("impact", [.CHANGE_IMPACT, .SECURITY, .ARCHITECT]),
   ("change", [.CHANGE_IMPACT, .SECURITY, .ARCHITECT]),
   ("architecture", [.EXPLORER, .ARCHITECT, .EXPLAINER]),
   ("structure", [.EXPLORER, .ARCHITECT, .EXPLAINER]),
   ("overview", [.EXPLORER, .ARCHITECT, .EXPLAINER]),
   ("audit", [.EXPLORER, .ARCHITECT, .SECURITY, .EXPLAINER])]

/-- The dispatcher `getAgentWorkflow` (`App.tsx` lines 13-41): lower-case the query
(the source's `normalizedQuery` local, inlined here), return the workflow of
the first trigger that occurs as a substring, else `[EXPLORER]`. -/
def getAgentWorkflow (query : String) : List AgentType :=
  match workflowDefinitions.find? (fun p => substrOf p.1 (jsToLower query)) with
  | some p => p.2
  | none => [AgentType.EXPLORER]

example : getAgentWorkflow "audit" =
    [AgentType.EXPLORER, AgentType.ARCHITECT, AgentType.SECURITY, AgentType.EXPLAINER] := by
  decide

example : getAgentWorkflow "Give me an OVERVIEW" =
    [AgentType.EXPLORER, AgentType.ARCHITECT, AgentType.EXPLAINER] := by
  decide

example : getAgentWorkflow "" = [AgentType.EXPLORER] := by decide

example : getAgentWorkflow "explain how to refactor this" =
    [AgentType.REFACTORER, AgentType.ARCHITECT] := by decide

/-- File tree nodes, from `types.ts` (`interface FileNode`).  The `type` field
is the TypeScript union `'file' | 'directory'`, but the import flow casts
unvalidated strings into it (`item.type as 'file' | 'directory'`), so it is
embedded as a plain `String`. -/
inductive FileNode where
  | mk (name : String) (path : String) (type : String)
       (children : Option (List FileNode)) (content : Option String)

/-- Field accessor for `FileNode.name`. -/
def FileNode.name : FileNode → String
  | .mk n _ _ _ _ => n

/-- Field accessor for `FileNode.path`. -/
def FileNode.path : FileNode → String
  | .mk _ p _ _ _ => p

/-- Field accessor for `FileNode.type`. -/
def FileNode.type : FileNode → String
  | .mk _ _ t _ _ => t

/-- Field accessor for `FileNode.children`. -/
def FileNode.children : FileNode → Option (List FileNode)
  | .mk _ _ _ c _ => c

/-- Field accessor for `FileNode.content`. -/
def FileNode.content : FileNode → Option String
  | .mk _ _ _ _ c => c

/-- JSON escaping of one character (quote, backslash, newline; other control
characters are left as-is, which is all the serialized fields need). -/
def jsonEscapeChar (c : Char) : String :=
  if c = '"' then "\\\""
  else if c = '\\' then "\\\\"
  else if c = '\n' then "\\n"
  else String.singleton c

/-- JSON string literal for `s`. -/
def jsonQuote (s : String) : String :=
  "\"" ++ String.join (s.data.map jsonEscapeChar) ++ "\""

mutual

/-- Models `JSON.stringify(node, (k, v) => k === 'content' ? undefined : v, 2)`
restricted to one `FileNode`: keys in declaration order (`name`, `path`,
`type`, `children`), the `content` field dropped by the replacer, an absent
`children` array omitted.  The indentation produced by the third argument is
abstracted away (no claim depends on the serialized text itself, only on which
fields it carries). -/
def stringifyNode : FileNode → String
  | .mk n p t cs _ =>
    "\x7b\"name\":" ++ jsonQuote n ++ ",\"path\":" ++ jsonQuote p
      ++ ",\"type\":" ++ jsonQuote t
      ++ (match cs with
          | none => ""
          | some l => ",\"children\":[" ++ stringifyItems l ++ "]")
      ++ "\x7d"

/-- Comma-separated serialization of the members of a JSON array of nodes. -/
def stringifyItems : List FileNode → String
  | [] => ""
  | [x] => stringifyNode x
  | x :: y :: xs => stringifyNode x ++ "," ++ stringifyItems (y :: xs)

end

/-- Models `JSON.stringify(forest, (k, v) => k === 'content' ? undefined : v, 2)`
on the root-level array `state.repoStructure`. -/
def stringifyForest (l : List FileNode) : String :=
  "[" ++ stringifyItems l ++ "]"

mutual

/-- Erases every `content` field of a node, recursively: the effect of the
`(k, v) => k === 'content' ? undefined : v` replacer on the tree. -/
def stripNode : FileNode → FileNode
  | .mk n p t cs _ =>
    .mk n p t (match cs with
               | none => none
               | some l => some (stripItems l)) none

/-- Erases every `content` field in a list of nodes. -/
def stripItems : List FileNode → List FileNode
  | [] => []
  | x :: xs => stripNode x :: stripItems xs

end

/-- The structural-query test of `App.tsx` line 108:
`userInput.toLowerCase().match(/architecture|structure|overview|audit/)`,
where a regex alternation of literals matches iff one of them occurs as a
substring. -/
def structuralQuery (userInput : String) : Bool :=
  let lq := jsToLower userInput
  substrOf "architecture" lq || substrOf "structure" lq
    || substrOf "overview" lq || substrOf "audit" lq

/-- The `repoContext` block of `App.tsx` lines 107-110. -/
def repoContextOf (userInput : String) (repoStructure : List FileNode) : String :=
  if structuralQuery userInput then
    "Full Project Structure:\n" ++ stringifyForest repoStructure ++ "\n\n"
  else ""

/-- The `contextHeader` block of `App.tsx` lines 103-105.  A set `currentFile`
with an absent `content` renders as the text `undefined`, as the JavaScript
template literal does. -/
def contextHeaderOf : Option FileNode → String
  | some f =>
      "Active File Context: " ++ f.path ++ "\nContent:\n"
        ++ f.content.getD "undefined" ++ "\n\n"
  | none => ""

/-- The prompt passed to `generateAtlasResponseStream` (`App.tsx` line 119):
`` `${repoContext}${contextHeader}Query: ${userInput}` ``. -/
def buildPrompt (userInput : String) (currentFile : Option FileNode)
    (repoStructure : List FileNode) : String :=
  repoContextOf userInput repoStructure ++ contextHeaderOf currentFile
    ++ "Query: " ++ userInput

/-- Modelled from the spec's words (§4.2 `assemble`, and the C8 sentence): the
concatenation of an optional structural-context block (present iff the
lower-cased query matches `architecture|structure|overview|audit`), an
optional active-file block (present iff `currentFile` is set), and the literal
`"Query: "` followed by the query.  Stated independently of `buildPrompt` to
compare the two. -/
def assembleSpec (query : String) (currentFile : Option FileNode)
    (repoForest : List FileNode) : String :=
  String.join
    [cond (structuralQuery query)
       ("Full Project Structure:\n" ++ stringifyForest repoForest ++ "\n\n") "",
     currentFile.elim ""
       (fun f => "Active File Context: " ++ f.path ++ "\nContent:\n"
                   ++ f.content.getD "undefined" ++ "\n\n"),
     "Query: ", query]

/-- Behavior of the external Gemini stream consumed by
`generateAtlasResponseStream` (`geminiService.ts`): either the stream yields a
list of chunks and ends, or it throws after yielding some chunks.  Each
chunk's `text` may be missing (`none`, JavaScript `undefined`) or any string.
A failure carries `some message` when the thrown value is an `Error`, `none`
otherwise (for `'Unknown API failure'`). -/
inductive StreamOutcome where
  | ok (chunks : List (Option String))
  | failed (chunks : List (Option String)) (msg : Option String)

/-- The chunk texts actually delivered by the `for await` loop of
`generateAtlasResponseStream` lines 40-46: `if (chunkText)` skips both a
missing `text` and an empty string (both are falsy). -/
def deliveredOf (chunks : List (Option String)) : List String :=
  chunks.filterMap (fun c =>
    match c with
    | some s => if s = "" then none else some s
    | none => none)

/-- The `friendlyError` string of `geminiService.ts` line 51. -/
def friendlyError (msg : Option String) : String :=
  "\n\n**Agent Error:** " ++ msg.getD "Unknown API failure"
    ++ ". Check your API quota or key validity."

/-- The gateway wrapper `generateAtlasResponseStream` (`geminiService.ts` lines 10-55), as a
function of the external stream's behavior.  The returned pair is the ordered
list of arguments passed to `onChunk` and the value the promise resolves with.
The function is total: the `catch` block converts every failure into one
delivered error fragment and a normal resolution, so nothing is thrown past
the gateway boundary.  (The prompt, history and request configuration only
shape the outbound request to the external model and do not influence this
observable behavior.) -/
def generateAtlasResponseStream : StreamOutcome → List String × String
  | .ok chunks => (deliveredOf chunks, String.join (deliveredOf chunks))
  | .failed chunks msg =>
      (deliveredOf chunks ++ [friendlyError msg], friendlyError msg)

/-- Messages, from `types.ts` (`interface Message`).  `id` is the `Nat` read
from `Date.now()` (the source stores its decimal string; `toString` on `Nat`
is injective, so distinctness of ids is preserved by the embedding). -/
structure Message where
  id : Nat
  role : Role
  content : String
  agent : Option AgentType
  timestamp : Nat
deriving DecidableEq, Repr

/-- The `AppState` of `types.ts`. -/
structure AppState where
  messages : List Message
  isThinking : Bool
  activeAgents : List AgentType
  currentFile : Option FileNode
  repoStructure : List FileNode

/-- One session of `App.tsx`: the React `AppState` plus the closure state of
the in-flight `handleSendMessage` call (`assistantId` and the accumulated
`streamedContent`) and the `isIngesting` flag of the import flow. -/
structure Session where
  app : AppState
  inflight : Option (Nat × String)
  isIngesting : Bool

/-- The user message appended by `handleSendMessage` (`App.tsx` lines 64-69),
with `t1` the `Date.now()` reading. -/
def mkUserMessage (t1 : Nat) (userInput : String) : Message :=
  { id := t1, role := .user, content := userInput, agent := none, timestamp := t1 }

/-- The empty assistant placeholder of `App.tsx` lines 89-96, with `t2` the
`Date.now()` reading: its id is `t2 + 1`. -/
def mkAssistantPlaceholder (t2 : Nat) : Message :=
  { id := t2 + 1, role := .assistant, content := "", agent := some .ATLAS,
    timestamp := t2 }

/-- The raw child shape of the analysis payload (`structure[].children[]` in
the response schema of `analyzeGithubRepo`). -/
structure RawChild where
  name : String
  path : String
  type : String

/-- The raw top-level shape of the analysis payload (`structure[]`). -/
structure RawNode where
  name : String
  path : String
  type : String
  children : Option (List RawChild)

/-- The payload resolved by `analyzeGithubRepo` (`geminiService.ts`
response schema): `repoName`, `summary`, `stack`, and the predicted structure
(named `struct` here because `structure` is a Lean keyword).  `repoName` is
`Option` to model a missing field in the parsed JSON. -/
structure Analysis where
  repoName : Option String
  summary : String
  stack : List String
  struct : List RawNode

/-- Models `a || b` on a possibly-missing string: JavaScript `||` falls through
on the falsy values `undefined` and `""`. -/
def jsOrElse (a : Option String) (b : String) : String :=
  match a with
  | some s => if s = "" then b else s
  | none => b

/-- Models `url.split('/').pop()` (the last `/`-separated segment). -/
def lastSegment (url : String) : String :=
  (((url.data.splitOn '/').map (fun l => (⟨l⟩ : String))).getLastD "")

/-- The synthetic content injected into discovered remote files
(`App.tsx` line 161). -/
def discoveredContent (childName : String) : String :=
  "// Discovered remote file: " ++ childName
    ++ "\n// Use Atlas agents to explain or generate content."

/-- The mapping of one analysis child into a `FileNode`
(`App.tsx` lines 157-162). -/
def childToFileNode (c : RawChild) : FileNode :=
  .mk c.name c.path c.type none
    (if c.type = "file" then some (discoveredContent c.name) else none)

/-- The mapping of one top-level analysis item into a `FileNode`
(`App.tsx` lines 153-163). -/
def itemToFileNode (item : RawNode) : FileNode :=
  .mk item.name item.path item.type
    (item.children.map (fun cs => cs.map childToFileNode)) none

/-- The `newRepoNode` built by `handleImportRepo` (`App.tsx` lines 149-164). -/
def newRepoNode (url : String) (a : Analysis) : FileNode :=
  .mk (jsOrElse a.repoName (lastSegment url)) url "directory"
    (some (a.struct.map itemToFileNode)) none

/-- The `architectSummary` of `App.tsx` line 166. -/
def architectSummary (a : Analysis) : String :=
  "### 🛰️ Repository Ingested: " ++ (a.repoName.getD "undefined") ++ "\n\n"
    ++ a.summary ++ "\n\n**Stack Identified:**\n"
    ++ String.intercalate "\n" (a.stack.map (fun s => "- " ++ s))
    ++ "\n\n**Explorer Insights:**\nAtlas has identified the key entry points and mapped the first two levels of the repository structure. You can now explore the files in the sidebar and ask for specific module analysis."

/-- The assistant message appended on import success (`App.tsx` lines 171-177),
with `t` the `Date.now()` reading. -/
def importSuccessMessage (t : Nat) (a : Analysis) : Message :=
  { id := t, role := .assistant, content := architectSummary a,
    agent := some .ARCHITECT, timestamp := t }

/-- The assistant message appended on import failure (`App.tsx` lines 183-189),
with `t` the `Date.now()` reading. -/
def importFailMessage (t : Nat) (url : String) : Message :=
  { id := t, role := .assistant,
    content := "❌ **Ingestion Failed:** Could not analyze repository at "
      ++ url ++ ". Please ensure the URL is valid and public.",
    agent := some .ATLAS, timestamp := t }

/-- The import flow `handleImportRepo` (`App.tsx` lines 143-195) as a function of the settled
result of `analyzeGithubRepo`: on success append the new root node and one
Architect summary message; on rejection append one failure message and leave
the forest untouched; the `finally` block clears `isIngesting` on both paths. -/
def handleImportRepo (s : Session) (t : Nat) (url : String)
    (result : Except String Analysis) : Session :=
  match result with
  | .ok a =>
      { s with
        app := { s.app with
                 repoStructure := s.app.repoStructure ++ [newRepoNode url a],
                 messages := s.app.messages ++ [importSuccessMessage t a] },
        isIngesting := false }
  | .error _ =>
      { s with
        app := { s.app with
                 messages := s.app.messages ++ [importFailMessage t url] },
        isIngesting := false }

/-- The events that mutate a session, each carrying its `Date.now()` readings:
`submit` is the synchronous prefix of `handleSendMessage` (user message,
flags, placeholder; readings `t1` for the user message and `t2` for the
placeholder, so the placeholder id is `t2 + 1`); `timerFire` is one staggered
agent-activation callback (`App.tsx` lines 80-87); `chunkArrive` is one
`onChunk` callback (lines 121-129); `completeSend` is the final `setState`
after the awaited stream resolves (lines 132-136); `importOk`/`importErr` are
the settled import flow. -/
inductive Event where
  | submit (t1 t2 : Nat) (userInput : String)
  | timerFire (agent : AgentType)
  | chunkArrive (frag : String)
  | completeSend
  | importOk (t : Nat) (url : String) (a : Analysis)
  | importErr (t : Nat) (url : String)

/-- The session transition function.  Every branch is the effect of the
corresponding `setState` call(s) of `App.tsx` on the previous snapshot. -/
def step (s : Session) : Event → Session
  | .submit t1 t2 userInput =>
      { s with
        app := { s.app with
                 messages := s.app.messages
                   ++ [mkUserMessage t1 userInput, mkAssistantPlaceholder t2],
                 isThinking := true,
                 activeAgents := [.ATLAS] },
        inflight := some (t2 + 1, "") }
  | .timerFire agent =>
      { s with
        app := { s.app with
                 activeAgents :=
                   if agent ∈ s.app.activeAgents then s.app.activeAgents
                   else s.app.activeAgents ++ [agent] } }
  | .chunkArrive frag =>
      match s.inflight with
      | none => s
      | some (assistantId, streamed) =>
          let streamed' := streamed ++ frag
          { s with
            app := { s.app with
                     messages := s.app.messages.map (fun m =>
                       if m.id = assistantId then { m with content := streamed' }
                       else m) },
            inflight := some (assistantId, streamed') }
  | .completeSend =>
      { s with
        app := { s.app with isThinking := false, activeAgents := [] },
        inflight := none }
  | .importOk t url a => handleImportRepo s t url (.ok a)
  | .importErr t url => handleImportRepo s t url (.error "")

/-- The initial session.  The seed forest `MOCK_REPO` lives in `constants.ts`,
which is not part of the provided sources, so the seed is a parameter. -/
def initSession (seed : List FileNode) : Session :=
  { app := { messages := [], isThinking := false, activeAgents := [],
             currentFile := none, repoStructure := seed },
    inflight := none, isIngesting := false }

/-- Folds a list of events from the initial session. -/
def run (seed : List FileNode) (events : List Event) : Session :=
  events.foldl step (initSession seed)

/-- The whole awaited body of `handleSendMessage` for one gateway outcome and
no interleaved timer callbacks: the synchronous submit prefix, then one
`chunkArrive` per `onChunk` invocation of the gateway (error fragment
included), then the terminal `setState`. -/
def runSend (s : Session) (t1 t2 : Nat) (userInput : String)
    (outcome : StreamOutcome) : Session :=
  step ((generateAtlasResponseStream outcome).1.foldl
          (fun st frag => step st (.chunkArrive frag))
          (step s (.submit t1 t2 userInput)))
    .completeSend

/-- Models JavaScript `input.trim()`: drops leading and trailing whitespace. -/
def jsTrim (s : String) : String :=
  ⟨((s.data.dropWhile Char.isWhitespace).reverse.dropWhile Char.isWhitespace).reverse⟩

/-- The form handler `handleSubmit` of `ChatInterface.tsx` lines 204-210: the chat form only
forwards to `onSendMessage` when the trimmed input is nonempty and
`isThinking` is false. -/
def chatHandleSubmit (s : Session) (input : String) (t1 t2 : Nat)
    (outcome : StreamOutcome) : Session :=
  if jsTrim input ≠ "" ∧ s.app.isThinking = false then
    runSend s t1 t2 (jsTrim input) outcome
  else s

/-- The fixed query of `handleProjectOverview` (`App.tsx` lines 214-216). -/
def projectOverviewQuery : String :=
  "Perform a deep architectural audit of the current project structure. Identify primary layers, design patterns, and critical data flow paths."

/-- The sidebar action `handleProjectOverview` (`App.tsx` lines 214-216): calls
`handleSendMessage` directly, with no `isThinking` guard. -/
def handleProjectOverview (s : Session) (t1 t2 : Nat)
    (outcome : StreamOutcome) : Session :=
  runSend s t1 t2 projectOverviewQuery outcome

/-- A clock discipline on a trace: every `Date.now()` reading of an event is at
least the running bound, the two readings of a `submit` are monotone, and the
bound then advances past every id the event allocated (a `submit` allocates
`t1` and `t2 + 1`, an import allocates `t`).  Real traces in which successive
wall-clock readings are more than 1 ms apart satisfy it. -/
def eventClockOk : Nat → List Event → Bool
  | _, [] => true
  | bound, .submit t1 t2 _ :: rest =>
      decide (bound ≤ t1) && decide (t1 ≤ t2) && eventClockOk (t2 + 2) rest
  | bound, .importOk t _ _ :: rest =>
      decide (bound ≤ t) && eventClockOk (t + 1) rest
  | bound, .importErr t _ :: rest =>
      decide (bound ≤ t) && eventClockOk (t + 1) rest
  | bound, .timerFire _ :: rest => eventClockOk bound rest
  | bound, .chunkArrive _ :: rest => eventClockOk bound rest
  | bound, .completeSend :: rest => eventClockOk bound rest

/-- The ids of the messages of a session, in log order. -/
def messageIds (s : Session) : List Nat :=
  s.app.messages.map (fun m => m.id)

/-! ## Helper lemmas -/

/-- The function `List.find?` returns the element at the first index whose test holds. -/
theorem find?_eq_of_first {α : Type} (p : α → Bool) :
    ∀ (l : List α) (i : Nat) (hi : i < l.length),
      p (l.get ⟨i, hi⟩) = true →
      (∀ j (hj : j < i), p (l.get ⟨j, Nat.lt_trans hj hi⟩) = false) →
      l.find? p = some (l.get ⟨i, hi⟩)
  | [], i, hi, _, _ => absurd hi (Nat.not_lt_zero i)
  | a :: t, 0, _, hp, _ => by
      simp only [List.get] at hp ⊢
      simp [List.find?_cons, hp]
  | a :: t, i + 1, hi, hp, hmin => by
      have ha : p a = false := hmin 0 (Nat.succ_pos i)
      have ih := find?_eq_of_first p t i (Nat.lt_of_succ_lt_succ hi)
        (by simpa using hp)
        (fun j hj => by simpa using hmin (j + 1) (Nat.succ_lt_succ hj))
      simp only [List.get] at ih ⊢
      simp [List.find?_cons, ha, ih]

/-- A substring of `a` is a substring of `a ++ b`. -/
theorem substrOf_append_right (n a b : String) (h : substrOf n a = true) :
    substrOf n (a ++ b) = true := by
  have h' : n.data <:+: a.data := of_decide_eq_true h
  exact decide_eq_true (by
    rw [String.data_append]
    exact h'.trans (List.prefix_append a.data b.data).isInfix)

mutual

/-- Serialization ignores every `content` field: stripping them first changes
nothing (node form). -/
theorem stringifyNode_strip : (x : FileNode) →
    stringifyNode (stripNode x) = stringifyNode x
  | .mk n p t none c => by simp [stripNode, stringifyNode]
  | .mk n p t (some l) c => by
      simp [stripNode, stringifyNode, stringifyItems_strip l]

/-- Serialization ignores every `content` field (list form). -/
theorem stringifyItems_strip : (l : List FileNode) →
    stringifyItems (stripItems l) = stringifyItems l
  | [] => rfl
  | [x] => by simp [stripItems, stringifyItems, stringifyNode_strip x]
  | x :: y :: xs => by
      have ih := stringifyItems_strip (y :: xs)
      have hs : stripItems (y :: xs) = stripNode y :: stripItems xs := by
        simp [stripItems]
      rw [hs] at ih
      simp only [stripItems, stringifyItems, stringifyNode_strip x]
      rw [ih]

end

/-! ## Claim C5 -/

/-- Claim C5: `getAgentWorkflow` lower-cases the query and returns the agent
sequence of the first trigger in mapping declaration order that occurs as a
substring of it; if no trigger occurs (in particular for the empty string) it
returns `[EXPLORER]`. -/
theorem dispatch_first_trigger_wins (q : String) :
    (∀ i (hi : i < workflowDefinitions.length),
       substrOf (workflowDefinitions.get ⟨i, hi⟩).1 (jsToLower q) = true →
       (∀ j (hj : j < i),
         substrOf (workflowDefinitions.get ⟨j, Nat.lt_trans hj hi⟩).1
           (jsToLower q) = false) →
       getAgentWorkflow q = (workflowDefinitions.get ⟨i, hi⟩).2)
    ∧ ((∀ i (hi : i < workflowDefinitions.length),
          substrOf (workflowDefinitions.get ⟨i, hi⟩).1 (jsToLower q) = false) →
        getAgentWorkflow q = [AgentType.EXPLORER])
    ∧ getAgentWorkflow "" = [AgentType.EXPLORER] := by
  refine ⟨?_, ?_, by decide⟩
  · intro i hi hp hmin
    unfold getAgentWorkflow
    rw [find?_eq_of_first (fun p => substrOf p.1 (jsToLower q))
          workflowDefinitions i hi hp hmin]
  · intro hall
    unfold getAgentWorkflow
    have hnone : workflowDefinitions.find?
        (fun p => substrOf p.1 (jsToLower q)) = none := by
      rw [List.find?_eq_none]
      intro x hx
      obtain ⟨⟨i, hi⟩, rfl⟩ := List.mem_iff_get.mp hx
      simpa using hall i hi
    rw [hnone]

/-- Witness for C5: in "explain how to refactor this" both the `explain` and
`refactor` triggers occur; `refactor` is declared first (index 6) and wins. -/
theorem dispatch_first_trigger_wins_witness :
    getAgentWorkflow "explain how to refactor this"
      = [AgentType.REFACTORER, AgentType.ARCHITECT] := by
  have h := (dispatch_first_trigger_wins "explain how to refactor this").1
    6 (by decide) (by decide) (by decide)
  exact h.trans (by decide)

/-! ## Claim C1 -/

/-- Claim C1 counterexample: the query "audit" contains only the `audit`
trigger, yet `getAgentWorkflow` returns the four-agent sequence
`[EXPLORER, ARCHITECT, SECURITY, EXPLAINER]`, not
`[EXPLORER, ARCHITECT, EXPLAINER]`: in the code `audit` has its own workflow
including `SECURITY`, unlike `architecture`/`structure`/`overview`. -/
theorem audit_bucket_counterexample :
    getAgentWorkflow "audit"
        = [AgentType.EXPLORER, AgentType.ARCHITECT, AgentType.SECURITY,
           AgentType.EXPLAINER]
      ∧ getAgentWorkflow "audit"
        ≠ [AgentType.EXPLORER, AgentType.ARCHITECT, AgentType.EXPLAINER] := by
  decide

/-- Claim C1 (amended): a query whose lower-cased text contains a trigger from
the architecture/structure/overview group and no trigger declared earlier
yields exactly `[EXPLORER, ARCHITECT, EXPLAINER]`; a query containing only the
`audit` trigger yields `[EXPLORER, ARCHITECT, SECURITY, EXPLAINER]`. -/
theorem structural_bucket_dispatch :
    (∀ q : String,
       (substrOf "architecture" (jsToLower q) = true
         ∨ substrOf "structure" (jsToLower q) = true
         ∨ substrOf "overview" (jsToLower q) = true) →
       (∀ j (hj : j < 13),
          substrOf (workflowDefinitions.get
            ⟨j, Nat.lt_trans hj (by decide)⟩).1 (jsToLower q) = false) →
       getAgentWorkflow q
         = [AgentType.EXPLORER, AgentType.ARCHITECT, AgentType.EXPLAINER])
    ∧ getAgentWorkflow "audit"
        = [AgentType.EXPLORER, AgentType.ARCHITECT, AgentType.SECURITY,
           AgentType.EXPLAINER] := by
  refine ⟨?_, by decide⟩
  intro q htrig hearlier
  by_cases h13 : substrOf "architecture" (jsToLower q) = true
  · have hfind := find?_eq_of_first
      (fun p => substrOf p.1 (jsToLower q)) workflowDefinitions 13 (by decide)
      h13 (fun j hj => hearlier j hj)
    unfold getAgentWorkflow
    rw [hfind]
    rfl
  · by_cases h14 : substrOf "structure" (jsToLower q) = true
    · have hfind := find?_eq_of_first
        (fun p => substrOf p.1 (jsToLower q)) workflowDefinitions 14 (by decide)
        h14 (fun j hj => by
          rcases Nat.lt_or_ge j 13 with hj13 | hj13
          · exact hearlier j hj13
          · have hj' : j = 13 := by omega
            subst hj'
            exact Bool.eq_false_iff.mpr h13)
      unfold getAgentWorkflow
      rw [hfind]
      rfl
    · have h15 : substrOf "overview" (jsToLower q) = true := by
        rcases htrig with h | h | h
        · exact absurd h h13
        · exact absurd h h14
        · exact h
      have hfind := find?_eq_of_first
        (fun p => substrOf p.1 (jsToLower q)) workflowDefinitions 15 (by decide)
        h15 (fun j hj => by
          rcases Nat.lt_or_ge j 13 with hj13 | hj13
          · exact hearlier j hj13
          · rcases Nat.lt_or_ge j 14 with hj14 | hj14
            · have hj' : j = 13 := by omega
              subst hj'
              exact Bool.eq_false_iff.mpr h13
            · have hj' : j = 14 := by omega
              subst hj'
              exact Bool.eq_false_iff.mpr h14)
      unfold getAgentWorkflow
      rw [hfind]
      rfl

/-- Witness for the amended C1 at the query "overview". -/
theorem structural_bucket_dispatch_witness :
    getAgentWorkflow "overview"
      = [AgentType.EXPLORER, AgentType.ARCHITECT, AgentType.EXPLAINER] :=
  structural_bucket_dispatch.1 "overview"
    (Or.inr (Or.inr (by decide))) (by decide)

/-! ## Claim C8 -/

/-- Claim C8: the assembled prompt is exactly the concatenation of the
optional structural-context block (the forest serialized with `content`
stripped, present iff the lower-cased query matches
`architecture|structure|overview|audit`), the optional active-file block
(present iff `currentFile` is set), and `"Query: "` followed by the query;
with no active file and a non-structural query it equals `"Query: " ++ q`;
and the serialization is invariant under stripping every `content` field. -/
theorem prompt_assembly_blocks (q : String) (file : Option FileNode)
    (forest : List FileNode) :
    buildPrompt q file forest = assembleSpec q file forest
    ∧ (structuralQuery q = false → file = none →
        buildPrompt q file forest = "Query: " ++ q)
    ∧ stringifyForest (stripItems forest) = stringifyForest forest := by
  refine ⟨?_, ?_, ?_⟩
  · unfold buildPrompt assembleSpec repoContextOf contextHeaderOf
    cases file <;> cases hq : structuralQuery q <;> rfl
  · intro hq hf
    subst hf
    unfold buildPrompt repoContextOf contextHeaderOf
    rw [hq]
    rfl
  · unfold stringifyForest
    rw [stringifyItems_strip]

/-- Witness for C8 at a non-structural query with no active file. -/
theorem prompt_assembly_blocks_witness :
    buildPrompt "hello there" none [] = "Query: " ++ "hello there" :=
  (prompt_assembly_blocks "hello there" none []).2.1 (by decide) rfl

/-! ## Claim C10 -/

/-- Claim C10: `generateAtlasResponseStream` never invokes `onChunk` with an
empty string (neither on the success nor on the failure path); chunks with an
empty or missing `text` contribute nothing; and on success the resolved value
is the concatenation, in delivery order, of exactly the fragments passed to
`onChunk`. -/
theorem stream_skips_empty_chunks (chunks c1 c2 : List (Option String))
    (msg : Option String) :
    "" ∉ (generateAtlasResponseStream (.ok chunks)).1
    ∧ "" ∉ (generateAtlasResponseStream (.failed chunks msg)).1
    ∧ (generateAtlasResponseStream (.ok chunks)).2
        = String.join (generateAtlasResponseStream (.ok chunks)).1
    ∧ deliveredOf (c1 ++ none :: c2) = deliveredOf (c1 ++ c2)
    ∧ deliveredOf (c1 ++ some "" :: c2) = deliveredOf (c1 ++ c2) := by
  have hdel : ∀ l : List (Option String), "" ∉ deliveredOf l := by
    intro l h
    rw [deliveredOf, List.mem_filterMap] at h
    obtain ⟨c, _, hc⟩ := h
    match c with
    | none => simp at hc
    | some str =>
        by_cases hs : str = "" <;> simp [hs] at hc
  have herr : friendlyError msg ≠ "" := by
    intro h
    have hlen := congrArg String.length h
    have h0 : ("\n\n**Agent Error:** ").length = 19 := by decide
    simp [friendlyError, String.length_append, h0] at hlen
  refine ⟨hdel chunks, ?_, rfl, ?_, ?_⟩
  · intro h
    rcases List.mem_append.mp h with h' | h'
    · exact hdel chunks h'
    · simp at h'
      exact herr h'.symm
  · simp [deliveredOf, List.filterMap_append]
  · simp [deliveredOf, List.filterMap_append]

/-! ## Claim C6 -/

/-- Claim C6: when the stream fails, `generateAtlasResponseStream` recovers
inside the gateway boundary (the embedding is a total function): it delivers
exactly one error fragment via `onChunk` after the already-delivered chunks,
resolves with that fragment, the fragment carries the recognizable
`**Agent Error:**` marker, and the calling `handleSendMessage` still reaches
its final state update, ending with `isThinking = false` and `activeAgents`
cleared. -/
theorem stream_failure_recovered (s : Session) (t1 t2 : Nat)
    (userInput : String) (chunks : List (Option String)) (msg : Option String) :
    (generateAtlasResponseStream (.failed chunks msg)).2 = friendlyError msg
    ∧ (generateAtlasResponseStream (.failed chunks msg)).1
        = deliveredOf chunks ++ [friendlyError msg]
    ∧ substrOf "**Agent Error:**" (friendlyError msg) = true
    ∧ (runSend s t1 t2 userInput (.failed chunks msg)).app.isThinking = false
    ∧ (runSend s t1 t2 userInput (.failed chunks msg)).app.activeAgents = [] := by
  refine ⟨rfl, rfl, ?_, rfl, rfl⟩
  unfold friendlyError
  apply substrOf_append_right
  apply substrOf_append_right
  decide

/-! ## Claim C7 -/

/-- Pointwise-identical maps leave a list unchanged. -/
theorem map_eq_self_of {α : Type} (l : List α) (f : α → α)
    (h : ∀ a ∈ l, f a = a) : l.map f = l := by
  induction l with
  | nil => rfl
  | cons a t ih =>
      simp only [List.map_cons, h a (by simp)]
      rw [ih (fun x hx => h x (by simp [hx]))]

/-- Claim C7: from a state whose log does not already use the placeholder id,
delivering the chunks "Hello, " and "world" rewrites only the placeholder
assistant message, whose content becomes exactly "Hello, world" while its id
stays `t2 + 1`; `isThinking` is still true after the chunks and becomes false
at the terminal completion event. -/
theorem chunks_rewrite_placeholder (s : Session) (t1 t2 : Nat)
    (userInput : String)
    (hfresh : ∀ m ∈ s.app.messages, m.id ≠ t2 + 1) (hle : t1 ≤ t2) :
    (step (step (step s (.submit t1 t2 userInput)) (.chunkArrive "Hello, "))
        (.chunkArrive "world")).app.messages
      = s.app.messages
        ++ [mkUserMessage t1 userInput,
            { mkAssistantPlaceholder t2 with content := "Hello, world" }]
    ∧ (step (step (step s (.submit t1 t2 userInput)) (.chunkArrive "Hello, "))
        (.chunkArrive "world")).app.isThinking = true
    ∧ (step (step (step (step s (.submit t1 t2 userInput))
          (.chunkArrive "Hello, ")) (.chunkArrive "world"))
        .completeSend).app.isThinking = false := by
  refine ⟨?_, rfl, rfl⟩
  have hne : t1 ≠ t2 + 1 := by omega
  simp only [step, List.map_append, List.map_map, List.map_cons, List.map_nil]
  rw [map_eq_self_of _ _ (fun m hm => by simp [hfresh m hm])]
  simp [mkUserMessage, mkAssistantPlaceholder, hne]

/-- Witness for C7, from the empty initial session with both clock readings 0:
the placeholder (id 1) ends with content "Hello, world". -/
theorem chunks_rewrite_placeholder_witness :
    (step (step (step (initSession []) (.submit 0 0 "hi"))
        (.chunkArrive "Hello, ")) (.chunkArrive "world")).app.messages
      = [mkUserMessage 0 "hi",
         { mkAssistantPlaceholder 0 with content := "Hello, world" }] := by
  have h := (chunks_rewrite_placeholder (initSession []) 0 0 "hi"
    (by intro m hm; simp [initSession] at hm) (Nat.le_refl 0)).1
  simpa [initSession] using h

/-! ## Claim C2 -/

/-- Claim C2 fails on the code: the staggered activation callbacks carry no
generation/epoch guard, so a timer that fires after the completion event has
cleared `activeAgents` re-adds its stale agent label to the idle session.
This theorem evaluates the machine on such a trace: after submit and
completion `activeAgents` is empty, yet one late timer leaves it at
`[EXPLAINER]` while `isThinking` is already false. -/
theorem late_timer_not_noop :
    (run [] [.submit 0 0 "explain the api", .completeSend]).app.activeAgents = []
    ∧ (run [] [.submit 0 0 "explain the api", .completeSend,
               .timerFire AgentType.EXPLAINER]).app.activeAgents
        = [AgentType.EXPLAINER]
    ∧ (run [] [.submit 0 0 "explain the api", .completeSend,
               .timerFire AgentType.EXPLAINER]).app.isThinking = false := by
  refine ⟨rfl, rfl, rfl⟩

/-! ## Claim C3 -/

/-- Claim C3 fails on the code: `handleSendMessage` itself never checks
`isThinking`, and `handleProjectOverview` (and the generator panel) call it
directly, so a submit issued while the session is generating appends a second
user message and a second placeholder (4 messages in total here).  Only the
chat form's `handleSubmit` path ignores the submit (last conjunct). -/
theorem submit_while_generating_not_ignored :
    (step (initSession []) (.submit 0 0 "explain the api")).app.isThinking = true
    ∧ (step (step (initSession []) (.submit 0 0 "explain the api"))
          (.submit 5 5 projectOverviewQuery)).app.messages.length = 4
    ∧ chatHandleSubmit (step (initSession []) (.submit 0 0 "explain the api"))
          "hello" 5 5 (.ok [])
        = step (initSession []) (.submit 0 0 "explain the api") := by
  refine ⟨rfl, rfl, ?_⟩
  unfold chatHandleSubmit
  rfl

/-! ## Claim C9 -/

/-- Claim C9: a rejected `analyzeGithubRepo` is caught atomically by
`handleImportRepo`: the repository forest is unchanged, exactly one
failure-describing assistant message is appended, and the `finally` block has
cleared the busy flag. -/
theorem import_failure_atomic (s : Session) (t : Nat) (url e : String) :
    (handleImportRepo s t url (.error e)).app.repoStructure
        = s.app.repoStructure
    ∧ (handleImportRepo s t url (.error e)).app.messages
        = s.app.messages ++ [importFailMessage t url]
    ∧ (handleImportRepo s t url (.error e)).isIngesting = false
    ∧ substrOf "Ingestion Failed" (importFailMessage t url).content = true := by
  refine ⟨rfl, rfl, rfl, ?_⟩
  show substrOf "Ingestion Failed"
    (("❌ **Ingestion Failed:** Could not analyze repository at " ++ url)
      ++ ". Please ensure the URL is valid and public.") = true
  apply substrOf_append_right
  apply substrOf_append_right
  decide

/-! ## Claim C4 -/

/-- Claim C4 counterexample: two submits one millisecond apart (clock readings
0 then 1, each submit reading the clock twice in the same millisecond) are a
reachable trace, and the second user message reuses the id of the first
placeholder: the id log is `[0, 1, 1, 2]`, which is not pairwise distinct. -/
theorem duplicate_id_counterexample :
    messageIds (run [] [.submit 0 0 "first question", .completeSend,
                        .submit 1 1 "second question"])
      = [0, 1, 1, 2]
    ∧ ¬ (messageIds (run [] [.submit 0 0 "first question", .completeSend,
                        .submit 1 1 "second question"])).Pairwise (· ≠ ·) := by
  have hids : messageIds (run [] [.submit 0 0 "first question", .completeSend,
      .submit 1 1 "second question"]) = [0, 1, 1, 2] := rfl
  refine ⟨hids, ?_⟩
  rw [hids]
  decide

/-- Appending a block of ids that all dominate the old bound keeps the id log
strictly increasing. -/
theorem ids_append_lt_chain (ids new : List Nat) (bound : Nat)
    (hch : ids.Chain' (· < ·)) (hlt : ∀ i ∈ ids, i < bound)
    (hnew : new.Chain' (· < ·)) (hge : ∀ j ∈ new, bound ≤ j) :
    (ids ++ new).Chain' (· < ·) := by
  rw [List.chain'_append]
  refine ⟨hch, hnew, ?_⟩
  intro x hx y hy
  exact lt_of_lt_of_le (hlt x (List.mem_of_mem_getLast? hx))
    (hge y (List.mem_of_mem_head? hy))

/-- Under the clock discipline, every reachable id log stays strictly
increasing. -/
theorem run_ids_strict_chain (evs : List Event) :
    ∀ (s : Session) (bound : Nat),
      (messageIds s).Chain' (· < ·) →
      (∀ i ∈ messageIds s, i < bound) →
      eventClockOk bound evs = true →
      (messageIds (evs.foldl step s)).Chain' (· < ·) := by
  induction evs with
  | nil => intro s bound hch _ _; exact hch
  | cons e rest ih =>
      intro s bound hch hlt hok
      cases e with
      | submit t1 t2 input =>
          simp only [eventClockOk, Bool.and_eq_true, decide_eq_true_eq] at hok
          obtain ⟨⟨h1, h2⟩, hrest⟩ := hok
          have hmsg : messageIds (step s (.submit t1 t2 input))
              = messageIds s ++ [t1, t2 + 1] := by
            simp [messageIds, step, mkUserMessage, mkAssistantPlaceholder]
          simp only [List.foldl_cons]
          refine ih _ (t2 + 2) ?_ ?_ hrest
          · rw [hmsg]
            refine ids_append_lt_chain _ _ bound hch hlt ?_ ?_
            · rw [List.chain'_cons]
              exact ⟨by omega, List.chain'_singleton _⟩
            · intro j hj
              simp at hj
              rcases hj with rfl | rfl <;> omega
          · intro i hi
            rw [hmsg] at hi
            rcases List.mem_append.mp hi with h | h
            · exact lt_trans (hlt i h) (by omega)
            · simp at h
              rcases h with rfl | rfl <;> omega
      | timerFire a =>
          exact ih _ bound hch hlt hok
      | chunkArrive frag =>
          have hmsg : messageIds (step s (.chunkArrive frag)) = messageIds s := by
            cases hin : s.inflight with
            | none => simp [step, hin, messageIds]
            | some pair =>
                obtain ⟨aid, acc⟩ := pair
                simp only [step, hin, messageIds, List.map_map]
                apply List.map_congr_left
                intro m _
                by_cases hm : m.id = aid <;> simp [hm]
          simp only [List.foldl_cons]
          exact ih _ bound (hmsg ▸ hch) (hmsg ▸ hlt) hok
      | completeSend =>
          exact ih _ bound hch hlt hok
      | importOk t url a =>
          simp only [eventClockOk, Bool.and_eq_true, decide_eq_true_eq] at hok
          obtain ⟨h1, hrest⟩ := hok
          have hmsg : messageIds (step s (.importOk t url a))
              = messageIds s ++ [t] := by
            simp [messageIds, step, handleImportRepo, importSuccessMessage]
          simp only [List.foldl_cons]
          refine ih _ (t + 1) ?_ ?_ hrest
          · rw [hmsg]
            refine ids_append_lt_chain _ _ bound hch hlt
              (List.chain'_singleton _) ?_
            · intro j hj
              simp at hj
              omega
          · intro i hi
            rw [hmsg] at hi
            rcases List.mem_append.mp hi with h | h
            · exact lt_trans (hlt i h) (by omega)
            · simp at h
              omega
      | importErr t url =>
          simp only [eventClockOk, Bool.and_eq_true, decide_eq_true_eq] at hok
          obtain ⟨h1, hrest⟩ := hok
          have hmsg : messageIds (step s (.importErr t url))
              = messageIds s ++ [t] := by
            simp [messageIds, step, handleImportRepo, importFailMessage]
          simp only [List.foldl_cons]
          refine ih _ (t + 1) ?_ ?_ hrest
          · rw [hmsg]
            refine ids_append_lt_chain _ _ bound hch hlt
              (List.chain'_singleton _) ?_
            · intro j hj
              simp at hj
              omega
          · intro i hi
            rw [hmsg] at hi
            rcases List.mem_append.mp hi with h | h
            · exact lt_trans (hlt i h) (by omega)
            · simp at h
              omega

/-- Claim C4 (amended): every transition preserves pairwise-distinct message
ids provided the `Date.now()` readings obey the clock discipline of
`eventClockOk` (each reading at least the running bound, which advances past
every allocated id, i.e. successive readings more than 1 ms apart); without
that spacing a submit can reuse the previous placeholder's id. -/
theorem message_ids_unique_spaced (seed : List FileNode) (evs : List Event)
    (h : eventClockOk 0 evs = true) :
    (messageIds (run seed evs)).Pairwise (· ≠ ·) := by
  have hch : (messageIds (run seed evs)).Chain' (· < ·) :=
    run_ids_strict_chain evs (initSession seed) 0
      (by simp [messageIds, initSession])
      (by simp [messageIds, initSession]) h
  have hpw := List.chain'_iff_pairwise.mp hch
  exact hpw.imp Nat.ne_of_lt

/-- Witness for the amended C4: the same two-submit trace with readings spaced
2 ms apart produces the distinct id log `[0, 1, 2, 3]`. -/
theorem message_ids_unique_spaced_witness :
    (messageIds (run [] [.submit 0 0 "first question", .completeSend,
                         .submit 2 2 "second question"])).Pairwise (· ≠ ·) :=
  message_ids_unique_spaced [] [.submit 0 0 "first question", .completeSend,
                               .submit 2 2 "second question"] (by decide)

end Atlas
